import Mathlib

/-!
Shallow embedding of the command-hierarchy engine of `src/vrachos/cli.py`
(the `Command` pydantic model and its click integration), together with a
faithful model of the behaviour the engine relies on from its external
argument parser (click 8): option construction defaults, per-option parse
semantics, context chaining, and the group/subcommand invocation order.

Python dictionaries are modelled as association lists with the usual
insert-or-overwrite-in-place semantics (`dictInsert`); Python `None` is the
`Value.vnone` constructor; pydantic's `PydanticUndefined` default sentinel is
`Option.none` at the `FieldInfo.default` field.
-/

set_option autoImplicit false

namespace Vrachos

/-- Python scalar values that flow through the CLI: `None`, `bool`, `int`,
`float` and `str`.  Float values keep their raw command-line token — no claim
in this development depends on float arithmetic or float literal syntax. -/
inductive Value where
  | vnone : Value
  | vbool : Bool → Value
  | vint : Int → Value
  | vfloat : String → Value
  | vstr : String → Value
deriving DecidableEq

/-- The declared type of a pydantic field (`field_info.annotation` in the
source).  The four supported scalar kinds are explicit; every other declared
type is `tother` with a descriptive tag. -/
inductive FType where
  | tbool : FType
  | tint : FType
  | tfloat : FType
  | tstr : FType
  | tother : String → FType
deriving DecidableEq

/-- Python truthiness of a scalar value (used by click's flag machinery; only
ever applied to `bool` defaults by the code under study). -/
def pyTruthy : Value → Bool
  | .vnone => false
  | .vbool b => b
  | .vint n => n != 0
  | .vfloat _ => true
  | .vstr s => s != ""

/-- One pydantic field declaration: declared type, default
(`none` models `PydanticUndefined`, `some .vnone` a literal `None` default),
optional short alias (`alias'`, since `alias` is reserved in Lean), optional
help description. -/
structure FieldInfo where
  ftype : FType
  default : Option Value
  alias' : Option String
  description : Option String
deriving DecidableEq

/-- A `Command` subclass: class-level `NAME`, the pydantic `model_fields` in
declaration order, and the class-level `SUBCOMMANDS_CLS` list.  Distinct
Python classes are modelled as structurally distinct values, so the claims
about chains assume the commands on the chain are pairwise distinct, which
holds for every proper command tree. -/
inductive CommandDef where
  | mk : String → List (String × FieldInfo) → List CommandDef → CommandDef

mutual

def CommandDef.decEq : (a b : CommandDef) → Decidable (a = b)
  | .mk n1 f1 s1, .mk n2 f2 s2 =>
    if hn : n1 = n2 then
      if hf : f1 = f2 then
        match CommandDef.decEqList s1 s2 with
        | isTrue hs => isTrue (by rw [hn, hf, hs])
        | isFalse hs => isFalse (fun h => by cases h; exact hs rfl)
      else isFalse (fun h => by cases h; exact hf rfl)
    else isFalse (fun h => by cases h; exact hn rfl)

def CommandDef.decEqList : (a b : List CommandDef) → Decidable (a = b)
  | [], [] => isTrue rfl
  | [], _ :: _ => isFalse (fun h => by cases h)
  | _ :: _, [] => isFalse (fun h => by cases h)
  | a :: as, b :: bs =>
    match CommandDef.decEq a b with
    | isTrue h1 =>
      match CommandDef.decEqList as bs with
      | isTrue h2 => isTrue (by rw [h1, h2])
      | isFalse h2 => isFalse (fun h => by cases h; exact h2 rfl)
    | isFalse h1 => isFalse (fun h => by cases h; exact h1 rfl)

end

instance : DecidableEq CommandDef := CommandDef.decEq

def CommandDef.NAME : CommandDef → String
  | .mk n _ _ => n

def CommandDef.fields : CommandDef → List (String × FieldInfo)
  | .mk _ fs _ => fs

def CommandDef.SUBCOMMANDS_CLS : CommandDef → List CommandDef
  | .mk _ _ s => s

/-- `_get_pydantic_field_default`: `PydanticUndefined` becomes `None`,
otherwise the declared default is returned unchanged. -/
def _get_pydantic_field_default (fi : FieldInfo) : Value :=
  match fi.default with
  | none => .vnone
  | some v => v

/-- Python's `str.endswith`, on the underlying character list (the library
`String.endsWith` is extensionally the same but does not reduce in the
kernel). -/
def pyEndsWith (s post : String) : Bool :=
  post.data.isSuffixOf s.data

/-- The description normalisation done inline in `_get_click_parameters`:
a truthy description not ending in a period gets one appended; `None` and
already-terminated descriptions pass through. -/
def normalizeDescription : Option String → Option String
  | none => none
  | some s => if s ≠ "" ∧ ¬ pyEndsWith s "." then some (s ++ ".") else some s

/-- Flag construction in `_get_click_parameters`: always `--<name>`, plus
`-<alias>` when the alias is truthy (non-empty) and differs from the name. -/
def mkFlags (field_name : String) (fi : FieldInfo) : List String :=
  let flags := ["--" ++ field_name]
  match fi.alias' with
  | some a => if a ≠ "" ∧ a ≠ field_name then flags ++ ["-" ++ a] else flags
  | none => flags

/-- A constructed `click.Option`: flag strings, the derived parameter name
(click takes it from the long flag, hence the field name), flag-ness,
stored default (`none` when the constructor received no default), required
marker, help text. -/
structure ClickOption where
  flags : List String
  name : String
  is_flag : Bool
  default : Option Value
  required : Bool
  help : Option String
deriving DecidableEq

/-- `click.Option.__init__` as exercised by the code under study: a flag
constructed without a default and not required gets the implicit default
`False`; every other combination stores the default as passed. -/
def mkClickOption (flags : List String) (name : String) (is_flag : Bool)
    (default : Option Value) (required : Bool) (help : Option String) : ClickOption :=
  let d := if is_flag ∧ default = none ∧ ¬ required then some (Value.vbool false) else default
  ⟨flags, name, is_flag, d, required, help⟩

/-- Click's `flag_value` for a plain flag: the negation (Python `not`) of the
stored default, `True` when there is no stored default (`not None`). -/
def ClickOption.flag_value (o : ClickOption) : Bool :=
  match o.default with
  | none => true
  | some v => ! pyTruthy v

/-- The value type click infers for an option: `BOOL` for flags, the type of
the default when one is stored, `STRING` otherwise. -/
def ClickOption.ctype (o : ClickOption) : FType :=
  if o.is_flag then .tbool
  else
    match o.default with
    | some (.vbool _) => .tbool
    | some (.vint _) => .tint
    | some (.vfloat _) => .tfloat
    | some (.vstr _) => .tstr
    | some .vnone => .tstr
    | none => .tstr

/-- Compile-time failure: `_get_click_parameters` raises
`NotImplementedError(f"Field: {field_name} | {field_info}")` on a field whose
declared type is not one of the four scalars; the error names the field. -/
inductive CompileErr where
  | notImplemented : String → FieldInfo → CompileErr
deriving DecidableEq

/-- The `click.Option` synthesised for one supported scalar field — the loop
body of `_get_click_parameters`: a non-`None` resolved default makes the
option optional with that default, otherwise it is required; `bool` fields
additionally set `is_flag`. -/
def optionFor (field_name : String) (fi : FieldInfo) : ClickOption :=
  let default := _get_pydantic_field_default fi
  let field_description := normalizeDescription fi.description
  let flags := mkFlags field_name fi
  let is_flag := fi.ftype = FType.tbool
  if default ≠ Value.vnone then
    mkClickOption flags field_name is_flag (some default) false field_description
  else
    mkClickOption flags field_name is_flag none true field_description

/-- The source's `if field_type in (bool, int, float, str)` membership
test. -/
def isSupportedScalar : FType → Bool
  | .tbool => true
  | .tint => true
  | .tfloat => true
  | .tstr => true
  | .tother _ => false

/-- The field loop of `_get_click_parameters`: one option per field in
declaration order; the first field whose declared type is not a supported
scalar aborts with `NotImplementedError`. -/
def getClickParametersGo : List (String × FieldInfo) → Except CompileErr (List ClickOption)
  | [] => .ok []
  | (field_name, fi) :: rest =>
    if isSupportedScalar fi.ftype then
      match getClickParametersGo rest with
      | .error e => .error e
      | .ok ps => .ok (optionFor field_name fi :: ps)
    else .error (.notImplemented field_name fi)

/-- `Command._get_click_parameters`. -/
def _get_click_parameters (cls : CommandDef) : Except CompileErr (List ClickOption) :=
  getClickParametersGo cls.fields

/-! ### The compiled click command tree (`Command._as_click`) -/

/-- A compiled `click.Command` / `click.Group`: name, synthesised options,
group marker (`SUBCOMMANDS_CLS` truthiness), registered subcommands keyed by
name (a Python dict), and the backing command class stored in
`context_settings["obj"]`. -/
inductive ClickCmd where
  | mk : String → List ClickOption → Bool → List (String × ClickCmd) → CommandDef → ClickCmd

def ClickCmd.name : ClickCmd → String
  | .mk n _ _ _ _ => n

def ClickCmd.params : ClickCmd → List ClickOption
  | .mk _ p _ _ _ => p

def ClickCmd.isGroup : ClickCmd → Bool
  | .mk _ _ g _ _ => g

def ClickCmd.subs : ClickCmd → List (String × ClickCmd)
  | .mk _ _ _ s _ => s

def ClickCmd.defn : ClickCmd → CommandDef
  | .mk _ _ _ _ d => d

/-- Insert-or-overwrite into a Python dict modelled as an association list:
an existing key keeps its position and gets the new value, a fresh key is
appended at the end. -/
def dictInsert {α : Type} (m : List (String × α)) (k : String) (v : α) : List (String × α) :=
  if k ∈ m.map Prod.fst then
    m.map (fun p => if p.1 = k then (k, v) else p)
  else m ++ [(k, v)]

/-- `click.Group.add_command`: `self.commands[cmd.name] = cmd` — a duplicate
name silently replaces the earlier registration. -/
def add_command (commands : List (String × ClickCmd)) (c : ClickCmd) :
    List (String × ClickCmd) :=
  dictInsert commands c.name c

mutual

/-- `Command._as_click`: children are compiled first (so a bad field deep in
the tree aborts the whole compilation before the parent is finalised), then
the node's own options; a node with subcommands becomes a `click.Group` with
`invoke_without_command=True`, other nodes become plain `click.Command`s. -/
def _as_click : CommandDef → Except CompileErr ClickCmd
  | .mk n fs subs =>
    match _as_click_list subs with
    | .error e => .error e
    | .ok subcommands =>
      match _get_click_parameters (.mk n fs subs) with
      | .error e => .error e
      | .ok params =>
        if subs ≠ [] then
          .ok (.mk n params true (subcommands.foldl add_command []) (.mk n fs subs))
        else
          .ok (.mk n params false [] (.mk n fs subs))

/-- The `for subcommand_cls in cls.SUBCOMMANDS_CLS` loop of `_as_click`
(the `if subcommand_click_obj:` guard never filters — a compiled click
command is always truthy). -/
def _as_click_list : List CommandDef → Except CompileErr (List ClickCmd)
  | [] => .ok []
  | c :: cs =>
    match _as_click c with
    | .error e => .error e
    | .ok k =>
      match _as_click_list cs with
      | .error e => .error e
      | .ok ks => .ok (k :: ks)

end

/-! ### The argument parser (click `make_context`, modelled) -/

/-- What the command line supplies for one option: the bare flag token, or a
flag followed by a value token. -/
inductive Raw where
  | flag : Raw
  | val : String → Raw
deriving DecidableEq

/-- The options supplied to one command on the command line, keyed by
parameter name (the argv tokenisation itself is not modelled; click resolves
`--name`/`-alias` to the same parameter). -/
abbrev Given := List (String × Raw)

/-- Parse-time failures click reports as `UsageError`s. -/
inductive UsageErr where
  | noSuchOption : String → UsageErr
  | missingParameter : String → UsageErr
  | badParameter : String → String → UsageErr
  | flagNeedsNoValue : String → UsageErr
  | optionNeedsValue : String → UsageErr
  | noSuchCommand : String → UsageErr
  | unexpectedExtraArgs : UsageErr
deriving DecidableEq

/-- Look an option up among the supplied arguments; click keeps the last
occurrence when a non-multiple option is repeated. -/
def gLookup (g : Given) (k : String) : Option Raw :=
  List.lookup k g.reverse

/-- Decimal digit accumulation for `strToInt?`. -/
def decNatLoop (acc : Nat) : List Char → Option Nat
  | [] => some acc
  | c :: cs =>
    if c.isDigit then decNatLoop (acc * 10 + (c.toNat - 48)) cs else none

/-- Python's `int(...)` on the plain decimal forms click feeds it: optional
sign followed by decimal digits (a kernel-reducible stand-in for
`String.toInt?`; no claim depends on exotic integer literal syntax). -/
def strToInt? (s : String) : Option Int :=
  match s.data with
  | [] => none
  | '-' :: [] => none
  | '-' :: cs => (decNatLoop 0 cs).map (fun n => -(n : Int))
  | '+' :: [] => none
  | '+' :: cs => (decNatLoop 0 cs).map (fun n => (n : Int))
  | cs => (decNatLoop 0 cs).map (fun n => (n : Int))

/-- ASCII lower-casing of one character (Python's `str.lower` on the
alphabet click's `BOOL` conversion cares about). -/
def lowerChar (c : Char) : Char :=
  if 'A' ≤ c ∧ c ≤ 'Z' then Char.ofNat (c.toNat + 32) else c

/-- Python's `str.lower`, character-wise. -/
def pyLower (s : String) : String :=
  ⟨s.data.map lowerChar⟩

/-- Click's value conversion for a supplied token, by the option's inferred
type.  Ints go through integer literal parsing; floats are kept raw (their
syntax is never exercised by a claim); `BOOL` accepts click's literal sets. -/
def convertValue (o : ClickOption) (tok : String) : Except UsageErr Value :=
  match o.ctype with
  | .tint =>
    match strToInt? tok with
    | some n => .ok (.vint n)
    | none => .error (.badParameter o.name tok)
  | .tfloat => .ok (.vfloat tok)
  | .tstr => .ok (.vstr tok)
  | .tbool =>
    if ["1", "true", "t", "yes", "y", "on"].contains (pyLower tok) then .ok (.vbool true)
    else if ["0", "false", "f", "no", "n", "off"].contains (pyLower tok) then .ok (.vbool false)
    else .error (.badParameter o.name tok)
  | .tother _ => .error (.badParameter o.name tok)

/-- Click's per-option processing: a present flag yields its `flag_value`; a
present value token is converted; an absent option falls back to the stored
default, and a required option with no stored default raises
`MissingParameter`; an absent optional option with no default is `None`. -/
def parseOne (o : ClickOption) (g : Given) : Except UsageErr Value :=
  match gLookup g o.name with
  | some .flag =>
    if o.is_flag then .ok (.vbool o.flag_value)
    else .error (.optionNeedsValue o.name)
  | some (.val s) =>
    if o.is_flag then .error (.flagNeedsNoValue o.name)
    else convertValue o s
  | none =>
    match o.default with
    | some d => .ok d
    | none =>
      if o.required then .error (.missingParameter o.name)
      else .ok .vnone

/-- The per-option loop over a command's declared parameters, building
`ctx.params` in declaration order. -/
def parseParamsGo (opts : List ClickOption) (g : Given) :
    Except UsageErr (List (String × Value)) :=
  match opts with
  | [] => .ok []
  | o :: rest =>
    match parseOne o g with
    | .error e => .error e
    | .ok v =>
      match parseParamsGo rest g with
      | .error e => .error e
      | .ok ps => .ok ((o.name, v) :: ps)

/-- Parse one command's supplied arguments against its declared options: an
argument naming no declared option is rejected by the tokenizer first
(`NoSuchOption`), then each declared option is processed. -/
def parseParams (opts : List ClickOption) (g : Given) :
    Except UsageErr (List (String × Value)) :=
  match g.find? (fun p => ! (opts.map ClickOption.name).contains p.1) with
  | some p => .error (.noSuchOption p.1)
  | none => parseParamsGo opts g

/-! ### Invocation contexts and the reconstructed hierarchy -/

/-- A `click.Context` as the engine consumes it: the command class stored in
`ctx.obj` and the parsed `ctx.params`.  The `parent` back-link is modelled by
position in a leaf-to-root list. -/
structure Ctx where
  obj : CommandDef
  params : List (String × Value)
deriving DecidableEq

/-- A node of the reconstructed argument hierarchy: a parsed scalar, or a
nested `SimpleNamespace` of an ancestor keyed by its field names. -/
inductive HVal where
  | scalar : Value → HVal
  | node : List (String × HVal) → HVal

mutual

def HVal.decEq : (a b : HVal) → Decidable (a = b)
  | .scalar v1, .scalar v2 =>
    if hv : v1 = v2 then isTrue (by rw [hv])
    else isFalse (fun h => by cases h; exact hv rfl)
  | .scalar _, .node _ => isFalse (fun h => by cases h)
  | .node _, .scalar _ => isFalse (fun h => by cases h)
  | .node l1, .node l2 =>
    match HVal.decEqList l1 l2 with
    | isTrue hl => isTrue (by rw [hl])
    | isFalse hl => isFalse (fun h => by cases h; exact hl rfl)

def HVal.decEqList : (a b : List (String × HVal)) → Decidable (a = b)
  | [], [] => isTrue rfl
  | [], _ :: _ => isFalse (fun h => by cases h)
  | _ :: _, [] => isFalse (fun h => by cases h)
  | (k1, v1) :: as, (k2, v2) :: bs =>
    if hk : k1 = k2 then
      match HVal.decEq v1 v2 with
      | isTrue hv =>
        match HVal.decEqList as bs with
        | isTrue hs => isTrue (by rw [hk, hv, hs])
        | isFalse hs => isFalse (fun h => by injection h with h1 h2; exact hs h2)
      | isFalse hv =>
        isFalse (fun h => by
          injection h with h1 h2
          injection h1 with h1a h1b
          exact hv h1b)
    else
      isFalse (fun h => by
        injection h with h1 h2
        injection h1 with h1a h1b
        exact hk h1a)

end

instance : DecidableEq HVal := HVal.decEq

abbrev Hierarchy := List (String × HVal)

/-- Copy one context's parsed params into the accumulating dict
(the `for param_key in current_ctx.params` loop). -/
def insertParams (acc : Hierarchy) (ps : List (String × Value)) : Hierarchy :=
  ps.foldl (fun a p => dictInsert a p.1 (HVal.scalar p.2)) acc

/-- The context-chain walk of `Command._build_hierarchy`.  At each context,
walking from the current context toward the root: a context belonging to
`cls` contributes its params flat; a context whose command lists `cls` among
its `SUBCOMMANDS_CLS` contributes, under that ancestor's `NAME`, the
ancestor's own reconstruction.  The source expresses the nested
reconstruction as `current_ctx.obj._build_hierarchy(current_ctx)`; since that
call's first iteration always satisfies `cls is current_ctx.obj`, it equals
seeding the accumulator with the ancestor's params and walking the remaining
chain (`build_hierarchy_restart` below proves the two forms equal). -/
def hierarchyWalk (cls : CommandDef) (acc : Hierarchy) : List Ctx → Hierarchy
  | [] => acc
  | c :: rest =>
    let acc2 :=
      if cls = c.obj then insertParams acc c.params
      else if cls ∈ c.obj.SUBCOMMANDS_CLS then
        dictInsert acc c.obj.NAME
          (HVal.node (hierarchyWalk c.obj (insertParams [] c.params) rest))
      else acc
    hierarchyWalk cls acc2 rest

/-- `Command._build_hierarchy`, on the leaf-to-root context chain. -/
def _build_hierarchy (cls : CommandDef) (chain : List Ctx) : Hierarchy :=
  hierarchyWalk cls [] chain

/-- Sanity: the direct transliteration of the source's recursive call
`current_ctx.obj._build_hierarchy(current_ctx)` equals the seeded walk used
inside `hierarchyWalk`. -/
theorem build_hierarchy_restart (c : Ctx) (rest : List Ctx) :
    _build_hierarchy c.obj (c :: rest) =
      hierarchyWalk c.obj (insertParams [] c.params) rest := by
  simp [_build_hierarchy, hierarchyWalk]

/-! ### Dispatch (`Command._handler` and click's invocation order) -/

/-- Observable dispatch events: `on_init` and `on_run` receive the
`SimpleNamespace` built from the reconstructed hierarchy; the default
`on_run` body prints the command's own help text (`helpEv`). -/
inductive Event where
  | onInitEv : String → Hierarchy → Event
  | onRunEv : String → Hierarchy → Event
  | helpEv : String → Event
deriving DecidableEq

/-- `Command._handler`: build the hierarchy from the current context chain,
run `on_init`, and run `on_run` only when no subcommand was invoked.  The
events record the repository's default handler bodies (`on_init` does
nothing, `on_run` prints help). -/
def _handler (cls : CommandDef) (chain : List Ctx) (invoked_subcommand : Option String) :
    List Event :=
  let args := _build_hierarchy cls chain
  Event.onInitEv cls.NAME args ::
    (if invoked_subcommand.isNone then
      [Event.onRunEv cls.NAME args, Event.helpEv cls.NAME]
    else [])

/-- One command's worth of command-line input: the options supplied to this
command, and optionally a subcommand name with its own input. -/
inductive Inv where
  | mk : Given → Option (String × Inv) → Inv

def Inv.given : Inv → Given
  | .mk g _ => g

def Inv.sub : Inv → Option (String × Inv)
  | .mk _ s => s

/-- Click's `make_context` for one command: parse its own options, then, for
a plain command (not a group), reject trailing tokens (a subcommand name
after a leaf is an unexpected extra argument). -/
def make_context (c : ClickCmd) (inv : Inv) : Except UsageErr Ctx :=
  match parseParams c.params inv.given with
  | .error e => .error e
  | .ok ps =>
    if !c.isGroup && inv.sub.isSome then .error .unexpectedExtraArgs
    else .ok ⟨c.defn, ps⟩

/-- Click's `MultiCommand.invoke` / `Command.invoke` order, as exercised with
`invoke_without_command=True`: with no subcommand the node's own callback
runs (with `invoked_subcommand = None`); with a subcommand the name is
resolved first, then the node's own callback runs (with
`invoked_subcommand` set), and only then is the subcommand's context made —
so a subcommand's parse error surfaces after its ancestors' callbacks. -/
def invokeClick : ClickCmd → List Ctx → Inv → List Event × Option UsageErr
  | c, chain, .mk _ none => (_handler c.defn chain none, none)
  | c, chain, .mk _ (some (cmd_name, subInv)) =>
    if c.isGroup then
      match List.lookup cmd_name c.subs with
      | none => ([], some (.noSuchCommand cmd_name))
      | some sub =>
        let evs := _handler c.defn chain (some cmd_name)
        match make_context sub subInv with
        | .error e => (evs, some e)
        | .ok subCtx =>
          let res := invokeClick sub (subCtx :: chain) subInv
          (evs ++ res.1, res.2)
    else ([], some .unexpectedExtraArgs)

/-- `Command.run`: compile the tree, make the root context, dispatch.  A
compile failure aborts before any parsing; a root parse failure aborts
before any dispatch event. -/
def runCLI (root : CommandDef) (inv : Inv) :
    Except CompileErr (List Event × Option UsageErr) :=
  match _as_click root with
  | .error e => .error e
  | .ok c =>
    match make_context c inv with
    | .error e => .ok ([], some e)
    | .ok ctx => .ok (invokeClick c [ctx] inv)

/-! ### The demonstration tree from the module's `__main__` block -/

/-- `TicketCreateCommand`: leaf with one required `str` field `key`. -/
def TicketCreateCommand : CommandDef :=
  .mk "create" [("key", ⟨.tstr, none, none, some "The ticket's unique key"⟩)] []

/-- `TicketCommand`: group over `create`, one defaulted `str` field. -/
def TicketCommand : CommandDef :=
  .mk "ticket" [("filter", ⟨.tstr, some (.vstr "default"), none, some "The ticket filter"⟩)]
    [TicketCreateCommand]

/-- `AppCommand`: root group, two aliased `bool` flags with defaults. -/
def AppCommand : CommandDef :=
  .mk "app"
    [("verbose", ⟨.tbool, some (.vbool false), some "v", some "Verbose output"⟩),
     ("debug", ⟨.tbool, some (.vbool true), some "d", some "Debug output"⟩)]
    [TicketCommand]

/-- The parsed params of `AppCommand` when no app-level flag is supplied. -/
def appParams : List (String × Value) :=
  [("verbose", .vbool false), ("debug", .vbool true)]

/-- `appParams` lifted into the hierarchy `AppCommand`'s dispatch sees. -/
def appDefaults : Hierarchy :=
  [("verbose", .scalar (.vbool false)), ("debug", .scalar (.vbool true))]

/-- The compiled click command for `TicketCreateCommand`. -/
def createClick : ClickCmd :=
  .mk "create"
    [⟨["--key"], "key", false, none, true, some "The ticket's unique key."⟩]
    false [] TicketCreateCommand

/-- The compiled click group for `TicketCommand`. -/
def ticketClick : ClickCmd :=
  .mk "ticket"
    [⟨["--filter"], "filter", false, some (.vstr "default"), false,
        some "The ticket filter."⟩]
    true [("create", createClick)] TicketCommand

/-- The compiled click group for `AppCommand`. -/
def appClick : ClickCmd :=
  .mk "app"
    [⟨["--verbose", "-v"], "verbose", true, some (.vbool false), false,
        some "Verbose output."⟩,
     ⟨["--debug", "-d"], "debug", true, some (.vbool true), false,
        some "Debug output."⟩]
    true [("ticket", ticketClick)] AppCommand

/-- The hierarchy `TicketCommand`'s dispatch sees when invoked with all
defaults: its own field flat, plus its parent `app`'s values nested under
the parent's name. -/
def ticketDefaults : Hierarchy :=
  [("filter", .scalar (.vstr "default")), ("app", .node appDefaults)]

/-! ### Helper lemmas -/

/-- Shorthand for a params dict lifted into hierarchy scalars. -/
def scalars (ps : List (String × Value)) : Hierarchy :=
  ps.map (fun p => (p.1, HVal.scalar p.2))

theorem scalars_keys (ps : List (String × Value)) :
    (scalars ps).map Prod.fst = ps.map Prod.fst := by
  simp [scalars]

theorem dictInsert_fresh {α : Type} (m : List (String × α)) (k : String) (v : α)
    (h : k ∉ m.map Prod.fst) : dictInsert m k v = m ++ [(k, v)] := by
  simp [dictInsert, h]

theorem insertParams_disjoint (ps : List (String × Value)) :
    ∀ acc : Hierarchy,
      (ps.map Prod.fst).Nodup →
      (∀ k ∈ ps.map Prod.fst, k ∉ acc.map Prod.fst) →
      insertParams acc ps = acc ++ scalars ps := by
  induction ps with
  | nil => intro acc _ _; simp [insertParams, scalars]
  | cons p ps ih =>
    intro acc hnd hdisj
    have hfresh : p.1 ∉ acc.map Prod.fst := hdisj p.1 (by simp)
    rw [List.map_cons] at hnd
    obtain ⟨hp, hnd'⟩ := List.nodup_cons.mp hnd
    have hstep : insertParams acc (p :: ps) =
        insertParams (acc ++ [(p.1, HVal.scalar p.2)]) ps := by
      simp only [insertParams, List.foldl_cons]
      rw [dictInsert_fresh _ _ _ hfresh]
    rw [hstep, ih (acc ++ [(p.1, HVal.scalar p.2)]) hnd' ?_]
    · simp [scalars]
    · intro k hk
      simp only [List.map_append, List.mem_append, List.map_cons, List.map_nil,
        List.mem_singleton, not_or]
      refine ⟨hdisj k (by simp [hk]), ?_⟩
      intro hcontra
      exact hp (by simpa [hcontra] using hk)

theorem insertParams_nil (ps : List (String × Value))
    (hnd : (ps.map Prod.fst).Nodup) : insertParams [] ps = scalars ps := by
  simpa using insertParams_disjoint ps [] hnd (by simp)

/-- The reconstruction of a command invoked directly below its parent: its
own params flat, then the parent's params nested under the parent's name. -/
theorem walk_child_parent (child parent : CommandDef)
    (pC pP : List (String × Value)) (hmem : child ∈ parent.SUBCOMMANDS_CLS)
    (hne : child ≠ parent)
    (hndC : (pC.map Prod.fst).Nodup) (hndP : (pP.map Prod.fst).Nodup)
    (hfresh : parent.NAME ∉ pC.map Prod.fst) :
    _build_hierarchy child [⟨child, pC⟩, ⟨parent, pP⟩] =
      scalars pC ++ [(parent.NAME, HVal.node (scalars pP))] := by
  simp only [_build_hierarchy, hierarchyWalk, hne, hmem, if_true, if_false,
    reduceIte, ite_true, ite_false]
  rw [insertParams_nil pC hndC, insertParams_nil pP hndP,
    dictInsert_fresh _ _ _ (by rw [scalars_keys]; exact hfresh)]

theorem optionFor_name (fn : String) (fi : FieldInfo) : (optionFor fn fi).name = fn := by
  simp only [optionFor, mkClickOption]
  split <;> rfl

theorem getClickParametersGo_names :
    ∀ (fs : List (String × FieldInfo)) (opts : List ClickOption),
      getClickParametersGo fs = .ok opts →
      opts.map ClickOption.name = fs.map Prod.fst := by
  intro fs
  induction fs with
  | nil =>
    intro opts h
    simp only [getClickParametersGo, Except.ok.injEq] at h
    simp [← h]
  | cons p fs ih =>
    intro opts h
    obtain ⟨fn, fi⟩ := p
    simp only [getClickParametersGo] at h
    split at h
    · split at h
      · exact absurd h (by simp)
      · rename_i ps hps
        obtain rfl : optionFor fn fi :: ps = opts := by
          simpa using h
        simp [optionFor_name, ih ps hps]
    · exact absurd h (by simp)

theorem parseParamsGo_names :
    ∀ (opts : List ClickOption) (g : Given) (ps : List (String × Value)),
      parseParamsGo opts g = .ok ps →
      ps.map Prod.fst = opts.map ClickOption.name := by
  intro opts
  induction opts with
  | nil =>
    intro g ps h
    simp only [parseParamsGo, Except.ok.injEq] at h
    simp [← h]
  | cons o opts ih =>
    intro g ps h
    simp only [parseParamsGo] at h
    split at h
    · exact absurd h (by simp)
    · rename_i v hv
      split at h
      · exact absurd h (by simp)
      · rename_i qs hqs
        obtain rfl : (o.name, v) :: qs = ps := by simpa using h
        simp [ih g qs hqs]

theorem parseParams_names (opts : List ClickOption) (g : Given)
    (ps : List (String × Value)) (h : parseParams opts g = .ok ps) :
    ps.map Prod.fst = opts.map ClickOption.name := by
  unfold parseParams at h
  split at h
  · exact absurd h (by simp)
  · exact parseParamsGo_names opts g ps h

theorem make_context_ok (c : ClickCmd) (inv : Inv) (ctx : Ctx)
    (h : make_context c inv = .ok ctx) :
    ctx.obj = c.defn ∧ parseParams c.params inv.given = .ok ctx.params := by
  unfold make_context at h
  split at h
  · exact absurd h (by simp)
  · rename_i ps hps
    split at h
    · exact absurd h (by simp)
    · obtain rfl : (⟨c.defn, ps⟩ : Ctx) = ctx := by simpa using h
      exact ⟨rfl, hps⟩

/-- Shape of a successful compilation: the click command keeps the class in
`context_settings`, its name, its synthesised options, and is a group
exactly when the class declares subcommands. -/
theorem as_click_ok_spec (t : CommandDef) (c : ClickCmd) (h : _as_click t = .ok c) :
    c.defn = t ∧ c.name = t.NAME ∧ _get_click_parameters t = .ok c.params ∧
    c.isGroup = !t.SUBCOMMANDS_CLS.isEmpty ∧
    (t.SUBCOMMANDS_CLS = [] → c.subs = []) := by
  obtain ⟨n, fs, subs⟩ := t
  unfold _as_click at h
  split at h
  · exact absurd h (by simp)
  · rename_i ks hks
    split at h
    · exact absurd h (by simp)
    · rename_i ps hps
      split at h
      · rename_i hsubs
        obtain rfl : (ClickCmd.mk n ps true (ks.foldl add_command []) (.mk n fs subs)) = c := by
          simpa using h
        refine ⟨rfl, rfl, ?_, ?_, ?_⟩
        · simpa [_get_click_parameters] using hps
        · simp [ClickCmd.isGroup, CommandDef.SUBCOMMANDS_CLS, hsubs]
        · intro hnil; exact absurd hnil hsubs
      · rename_i hsubs
        rw [not_not] at hsubs
        obtain rfl : (ClickCmd.mk n ps false [] (.mk n fs subs)) = c := by
          simpa using h
        refine ⟨rfl, rfl, ?_, ?_, fun _ => rfl⟩
        · simpa [_get_click_parameters] using hps
        · simp [ClickCmd.isGroup, CommandDef.SUBCOMMANDS_CLS, hsubs]

/-! ### C1 -/

/-- C1: for a three-level invoked chain `root → mid → leaf` (distinct
commands, `leaf` a child of `mid`, `mid` a child of `root`, `leaf` not
itself a child of `root`) with per-command parsed params whose keys are
duplicate-free and do not collide with the ancestor names, the hierarchy
built for `leaf`'s dispatch holds `leaf`'s values flat (no self key),
`mid`'s values under `mid.NAME`, and `root`'s values under `root.NAME`
inside `mid`'s node; the hierarchy built for `mid`'s own dispatch holds
`mid`'s values flat and `root`'s values under `root.NAME`.  The equalities
are exact, so nothing else — in particular no command off the invoked
path — appears in either mapping. -/
theorem C1_three_level_ancestor_nesting
    (root mid leaf : CommandDef) (pR pM pL : List (String × Value))
    (hLM : leaf ∈ mid.SUBCOMMANDS_CLS) (hMR : mid ∈ root.SUBCOMMANDS_CLS)
    (hLR : leaf ∉ root.SUBCOMMANDS_CLS)
    (hLm : leaf ≠ mid) (hLr : leaf ≠ root) (hMr : mid ≠ root)
    (hndL : (pL.map Prod.fst).Nodup) (hndM : (pM.map Prod.fst).Nodup)
    (hndR : (pR.map Prod.fst).Nodup)
    (hfreshM : mid.NAME ∉ pL.map Prod.fst)
    (hfreshR : root.NAME ∉ pM.map Prod.fst) :
    _build_hierarchy leaf [⟨leaf, pL⟩, ⟨mid, pM⟩, ⟨root, pR⟩] =
      scalars pL ++ [(mid.NAME, HVal.node
        (scalars pM ++ [(root.NAME, HVal.node (scalars pR))]))] ∧
    _build_hierarchy mid [⟨mid, pM⟩, ⟨root, pR⟩] =
      scalars pM ++ [(root.NAME, HVal.node (scalars pR))] := by
  refine ⟨?_, walk_child_parent mid root pM pR hMR hMr hndM hndR hfreshR⟩
  simp only [_build_hierarchy, hierarchyWalk, hLm, hLr, hMr, hLM, hMR, hLR,
    if_true, if_false, reduceIte, ite_true, ite_false]
  rw [insertParams_nil pL hndL, insertParams_nil pM hndM, insertParams_nil pR hndR,
    dictInsert_fresh _ _ _ (by rw [scalars_keys]; exact hfreshM),
    dictInsert_fresh _ _ _ (by rw [scalars_keys]; exact hfreshR)]

/-- Witness for C1 at the module's own demo tree, invoking
`app ticket create --key K1`. -/
theorem C1_witness :
    _build_hierarchy TicketCreateCommand
        [⟨TicketCreateCommand, [("key", .vstr "K1")]⟩,
         ⟨TicketCommand, [("filter", .vstr "default")]⟩,
         ⟨AppCommand, [("verbose", .vbool false), ("debug", .vbool true)]⟩] =
      scalars [("key", .vstr "K1")] ++ [("ticket", HVal.node
        (scalars [("filter", .vstr "default")] ++
          [("app", HVal.node (scalars [("verbose", .vbool false), ("debug", .vbool true)]))]))] ∧
    _build_hierarchy TicketCommand
        [⟨TicketCommand, [("filter", .vstr "default")]⟩,
         ⟨AppCommand, [("verbose", .vbool false), ("debug", .vbool true)]⟩] =
      scalars [("filter", .vstr "default")] ++
        [("app", HVal.node (scalars [("verbose", .vbool false), ("debug", .vbool true)]))] :=
  C1_three_level_ancestor_nesting AppCommand TicketCommand TicketCreateCommand
    [("verbose", .vbool false), ("debug", .vbool true)]
    [("filter", .vstr "default")] [("key", .vstr "K1")]
    (by decide) (by decide) (by decide) (by decide) (by decide) (by decide)
    (by decide) (by decide) (by decide) (by decide) (by decide)

/-! ### C2 -/

/-- C2 counterexample: invoking `app ticket` on the demo tree, `app` is a
node with the invoked child `ticket` on the invoked path, yet the hierarchy
`app`'s own dispatch receives (`appDefaults`) contains no `"ticket"` key at
all — `hierarchy-of-parent[child.name]` does not exist; the nesting runs the
other way (`ticket`'s hierarchy holds `app`'s values under `"app"`). -/
theorem C2_counterexample :
    runCLI AppCommand (.mk [] (some ("ticket", .mk [] none))) =
      .ok ([.onInitEv "app" appDefaults,
            .onInitEv "ticket" ticketDefaults,
            .onRunEv "ticket" ticketDefaults,
            .helpEv "ticket"], none) ∧
    List.lookup "ticket" appDefaults = none ∧
    List.lookup "app" ticketDefaults = some (.node appDefaults) := by
  refine ⟨rfl, rfl, rfl⟩

/-- C2 amended: every node on the invoked path exposes its own field values
by name, and when the node was invoked below a parent, it is the *parent's*
hierarchy that appears one level deeper in the node's own hierarchy, under
the *parent's* name key — `hierarchy-of-child[parent.NAME]` is the parent's
hierarchy (the claim had the nesting direction reversed). -/
theorem C2_amended_child_holds_parent (child parent : CommandDef)
    (pC pP : List (String × Value))
    (hmem : child ∈ parent.SUBCOMMANDS_CLS) (hne : child ≠ parent)
    (hndC : (pC.map Prod.fst).Nodup) (hndP : (pP.map Prod.fst).Nodup)
    (hfresh : parent.NAME ∉ pC.map Prod.fst) :
    _build_hierarchy child [⟨child, pC⟩, ⟨parent, pP⟩] =
      scalars pC ++
        [(parent.NAME, HVal.node (_build_hierarchy parent [⟨parent, pP⟩]))] := by
  rw [walk_child_parent child parent pC pP hmem hne hndC hndP hfresh]
  simp only [_build_hierarchy, hierarchyWalk, reduceIte, ite_true]
  rw [insertParams_nil pP hndP]

/-- Witness for the amended C2 at the demo tree (`app ticket`). -/
theorem C2_amended_witness :
    _build_hierarchy TicketCommand
        [⟨TicketCommand, [("filter", .vstr "default")]⟩,
         ⟨AppCommand, [("verbose", .vbool false), ("debug", .vbool true)]⟩] =
      scalars [("filter", .vstr "default")] ++
        [("app", HVal.node (_build_hierarchy AppCommand
          [⟨AppCommand, [("verbose", .vbool false), ("debug", .vbool true)]⟩]))] :=
  C2_amended_child_holds_parent TicketCommand AppCommand
    [("filter", .vstr "default")] [("verbose", .vbool false), ("debug", .vbool true)]
    (by decide) (by decide) (by decide) (by decide) (by decide)

/-! ### C10 -/

/-- C10: when the invoked command is the root of the tree (a context chain of
one, no parent), the reconstructed hierarchy is exactly the root's own parsed
values, flat: the parsed params carry one entry per declared field of the
root, in declaration order, and the hierarchy maps each such key to its
scalar value with no nested node. -/
theorem C10_root_dispatch_flat (root : CommandDef) (c : ClickCmd) (inv : Inv)
    (ctx : Ctx)
    (hnd : (root.fields.map Prod.fst).Nodup)
    (hc : _as_click root = .ok c)
    (hmk : make_context c inv = .ok ctx) :
    ctx.obj = root ∧
    ctx.params.map Prod.fst = root.fields.map Prod.fst ∧
    _build_hierarchy root [ctx] = scalars ctx.params := by
  obtain ⟨hdefn, hname, hparams, _, _⟩ := as_click_ok_spec root c hc
  obtain ⟨hobj, hparse⟩ := make_context_ok c inv ctx hmk
  have hkeys : ctx.params.map Prod.fst = root.fields.map Prod.fst := by
    rw [parseParams_names c.params inv.given ctx.params hparse,
      getClickParametersGo_names root.fields c.params
        (by simpa [_get_click_parameters] using hparams)]
  refine ⟨hobj.trans hdefn, hkeys, ?_⟩
  obtain ⟨o, ps⟩ := ctx
  simp only [Ctx.obj] at hobj hdefn
  subst hobj
  subst hdefn
  simp only at hkeys
  simp only [_build_hierarchy, hierarchyWalk, reduceIte, ite_true]
  exact insertParams_nil ps (by rw [hkeys]; exact hnd)

/-- Witness for C10: the demo root invoked bare (`app`). -/
theorem C10_witness :
    (⟨AppCommand, [("verbose", .vbool false), ("debug", .vbool true)]⟩ : Ctx).obj =
        AppCommand ∧
    ([("verbose", Value.vbool false), ("debug", Value.vbool true)] :
        List (String × Value)).map Prod.fst = AppCommand.fields.map Prod.fst ∧
    _build_hierarchy AppCommand
        [⟨AppCommand, [("verbose", .vbool false), ("debug", .vbool true)]⟩] =
      scalars [("verbose", .vbool false), ("debug", .vbool true)] :=
  C10_root_dispatch_flat AppCommand appClick (.mk [] none)
    ⟨AppCommand, [("verbose", .vbool false), ("debug", .vbool true)]⟩
    (by decide) rfl rfl

/-! ### C3 -/

/-- C3 counterexample: on the demo tree, `app ticket create` with the
required `--key` omitted does raise a usage error, but only after the
ancestors `app` and `ticket` have already run their `on_init` handlers — the
trace is not empty when the error surfaces, refuting "no on_init handler of
any command in the chain executes". -/
theorem C3_counterexample :
    runCLI AppCommand
        (.mk [] (some ("ticket", .mk [] (some ("create", .mk [] none))))) =
      .ok ([.onInitEv "app" appDefaults, .onInitEv "ticket" ticketDefaults],
        some (.missingParameter "key")) ∧
    Event.onInitEv "app" appDefaults ∈
      [Event.onInitEv "app" appDefaults, Event.onInitEv "ticket" ticketDefaults] :=
  ⟨rfl, by simp⟩

/-- C3 amended: when the invoked subcommand's own argument parsing fails
(e.g. a required non-boolean field is omitted), the invocation ends with
that usage error and the failing command's `on_init` never executes — but
the parent group's `on_init` has already executed: the dispatch trace is
exactly the parent's `on_init` event followed by the error.  Parsing failure
precedes the *failing node's* dispatch, not all dispatch. -/
theorem C3_amended_ancestor_init_precedes_usage_error
    (root : CommandDef) (c sub : ClickCmd) (g : Given) (nm : String)
    (subInv : Inv) (ctx : Ctx) (e : UsageErr)
    (hc : _as_click root = .ok c)
    (hlook : List.lookup nm c.subs = some sub)
    (hmk : make_context c (.mk g (some (nm, subInv))) = .ok ctx)
    (hfail : make_context sub subInv = .error e) :
    runCLI root (.mk g (some (nm, subInv))) =
      .ok ([Event.onInitEv root.NAME (_build_hierarchy root [ctx])], some e) := by
  obtain ⟨hdefn, hname, hparams, hgroup, hleaf⟩ := as_click_ok_spec root c hc
  have hg : c.isGroup = true := by
    cases hsub : root.SUBCOMMANDS_CLS with
    | nil => rw [hleaf hsub] at hlook; simp [List.lookup] at hlook
    | cons a l => rw [hgroup, hsub]; rfl
  simp only [runCLI, hc, hmk]
  simp only [invokeClick, hg, hlook, hfail, if_true, ite_true]
  simp only [_handler, Option.isNone, Bool.false_eq_true, if_false, hdefn]

/-- Witness for the amended C3: `ticket create` with `--key` omitted, from
the `ticket` group. -/
theorem C3_amended_witness :
    runCLI TicketCommand (.mk [] (some ("create", .mk [] none))) =
      .ok ([Event.onInitEv TicketCommand.NAME
              (_build_hierarchy TicketCommand
                [⟨TicketCommand, [("filter", .vstr "default")]⟩])],
        some (.missingParameter "key")) :=
  C3_amended_ancestor_init_precedes_usage_error TicketCommand ticketClick
    createClick [] "create" (.mk [] none)
    ⟨TicketCommand, [("filter", .vstr "default")]⟩
    (.missingParameter "key") rfl rfl rfl rfl

/-! ### C4 -/

/-- A command whose single boolean field declares no default. -/
def BareFlagCommand : CommandDef :=
  .mk "bare" [("verbose", ⟨.tbool, none, none, none⟩)] []

/-- C4 counterexample: a boolean field with no declared default synthesises
an option with `required := true` (refuting "never required"), and invoking
the command without the flag yields a missing-parameter usage error, not
`false`. -/
theorem C4_counterexample :
    _get_click_parameters BareFlagCommand =
      .ok [⟨["--verbose"], "verbose", true, none, true, none⟩] ∧
    runCLI BareFlagCommand (.mk [] none) =
      .ok ([], some (.missingParameter "verbose")) :=
  ⟨rfl, rfl⟩

/-- The option synthesised for a field whose resolved default is not
`None`: optional, carrying that default. -/
theorem optionFor_default_some (fn : String) (fi : FieldInfo)
    (h : _get_pydantic_field_default fi ≠ .vnone) :
    optionFor fn fi =
      ⟨mkFlags fn fi, fn, decide (fi.ftype = .tbool),
        some (_get_pydantic_field_default fi), false,
        normalizeDescription fi.description⟩ := by
  simp [optionFor, mkClickOption, h]

/-- The option synthesised for a field whose resolved default is `None`:
required, no stored default (click's implicit flag default is suppressed for
required options). -/
theorem optionFor_default_none (fn : String) (fi : FieldInfo)
    (h : _get_pydantic_field_default fi = .vnone) :
    optionFor fn fi =
      ⟨mkFlags fn fi, fn, decide (fi.ftype = .tbool), none, true,
        normalizeDescription fi.description⟩ := by
  simp [optionFor, mkClickOption, h]

/-- C4 amended: every boolean field synthesises a presence flag
(`is_flag`), but required-ness follows the same default rule as every other
field: with a non-`None` resolved default the option is optional and absence
yields that default; with no (or a `None`) default the option is required
and absence yields a missing-parameter usage error rather than `false`. -/
theorem C4_amended_bool_flag_required_rule (fn : String) (fi : FieldInfo)
    (g : Given) (hb : fi.ftype = .tbool) (habs : gLookup g fn = none) :
    (optionFor fn fi).is_flag = true ∧
    (∀ d, _get_pydantic_field_default fi = d → d ≠ .vnone →
      (optionFor fn fi).required = false ∧
      parseOne (optionFor fn fi) g = .ok d) ∧
    (_get_pydantic_field_default fi = .vnone →
      (optionFor fn fi).required = true ∧
      parseOne (optionFor fn fi) g = .error (.missingParameter fn)) := by
  refine ⟨?_, ?_, ?_⟩
  · by_cases h : _get_pydantic_field_default fi = .vnone
    · rw [optionFor_default_none fn fi h]; simp [hb]
    · rw [optionFor_default_some fn fi h]; simp [hb]
  · intro d hd hne
    rw [← hd] at hne ⊢
    rw [optionFor_default_some fn fi hne]
    simp [parseOne, habs]
  · intro h
    rw [optionFor_default_none fn fi h]
    simp [parseOne, habs]

/-- Witness for the amended C4 at the demo's `debug` field (default `True`)
with nothing supplied. -/
theorem C4_amended_witness :
    (optionFor "debug" ⟨.tbool, some (.vbool true), some "d", some "Debug output"⟩).is_flag
        = true ∧
    (∀ d, _get_pydantic_field_default
        ⟨.tbool, some (.vbool true), some "d", some "Debug output"⟩ = d →
      d ≠ .vnone →
      (optionFor "debug" ⟨.tbool, some (.vbool true), some "d", some "Debug output"⟩).required
          = false ∧
      parseOne (optionFor "debug" ⟨.tbool, some (.vbool true), some "d", some "Debug output"⟩)
          [] = .ok d) ∧
    (_get_pydantic_field_default
        ⟨.tbool, some (.vbool true), some "d", some "Debug output"⟩ = .vnone →
      (optionFor "debug" ⟨.tbool, some (.vbool true), some "d", some "Debug output"⟩).required
          = true ∧
      parseOne (optionFor "debug" ⟨.tbool, some (.vbool true), some "d", some "Debug output"⟩)
          [] = .error (.missingParameter "debug")) :=
  C4_amended_bool_flag_required_rule "debug"
    ⟨.tbool, some (.vbool true), some "d", some "Debug output"⟩ [] rfl rfl

/-! ### C7 -/

/-- C7: a group (a command with subcommands) invoked with no subcommand
dispatches its own `on_init`, then its own `on_run` — whose default body
prints the command's own help — and nothing else: the trace contains no
event of any child.  When a subcommand name is invoked, the group's handler
contributes exactly its `on_init` event: its `on_run` (and help print) is
skipped entirely. -/
theorem C7_group_no_subcommand_runs_self (root : CommandDef) (c : ClickCmd)
    (hc : _as_click root = .ok c) (hgroup : root.SUBCOMMANDS_CLS ≠ []) :
    (∀ g ctx, make_context c (.mk g none) = .ok ctx →
      invokeClick c [ctx] (.mk g none) =
        ([.onInitEv root.NAME (_build_hierarchy root [ctx]),
          .onRunEv root.NAME (_build_hierarchy root [ctx]),
          .helpEv root.NAME], none)) ∧
    (∀ chain nm, _handler root chain (some nm) =
      [.onInitEv root.NAME (_build_hierarchy root chain)]) := by
  obtain ⟨hdefn, -, -, -, -⟩ := as_click_ok_spec root c hc
  constructor
  · intro g ctx _
    simp [invokeClick, _handler, hdefn]
  · intro chain nm
    simp [_handler, Option.isNone]

/-- Witness for C7: the demo root invoked bare (`app`), and its handler
when `ticket` is the invoked subcommand. -/
theorem C7_witness :
    invokeClick appClick [⟨AppCommand, appParams⟩] (.mk [] none) =
      ([.onInitEv AppCommand.NAME
          (_build_hierarchy AppCommand [⟨AppCommand, appParams⟩]),
        .onRunEv AppCommand.NAME
          (_build_hierarchy AppCommand [⟨AppCommand, appParams⟩]),
        .helpEv AppCommand.NAME], none) ∧
    _handler AppCommand [⟨AppCommand, appParams⟩] (some "ticket") =
      [.onInitEv AppCommand.NAME
        (_build_hierarchy AppCommand [⟨AppCommand, appParams⟩])] :=
  ⟨(C7_group_no_subcommand_runs_self AppCommand appClick rfl (by decide)).1
      [] ⟨AppCommand, appParams⟩ rfl,
   (C7_group_no_subcommand_runs_self AppCommand appClick rfl (by decide)).2
      [⟨AppCommand, appParams⟩] "ticket"⟩

/-! ### C8 -/

/-- C8: for a non-boolean scalar field, a declared (non-`None`) default
makes the synthesised option optional, and absence on the command line
yields exactly that default; no declared default makes the option required,
and absence yields a missing-parameter usage error. -/
theorem C8_nonbool_default_required_rule (fn : String) (fi : FieldInfo)
    (g : Given)
    (ht : fi.ftype = .tint ∨ fi.ftype = .tfloat ∨ fi.ftype = .tstr)
    (habs : gLookup g fn = none) :
    (∀ d, _get_pydantic_field_default fi = d → d ≠ .vnone →
      (optionFor fn fi).required = false ∧
      parseOne (optionFor fn fi) g = .ok d) ∧
    (_get_pydantic_field_default fi = .vnone →
      (optionFor fn fi).required = true ∧
      parseOne (optionFor fn fi) g = .error (.missingParameter fn)) := by
  constructor
  · intro d hd hne
    rw [← hd] at hne ⊢
    rw [optionFor_default_some fn fi hne]
    simp [parseOne, habs]
  · intro h
    rw [optionFor_default_none fn fi h]
    simp [parseOne, habs]

/-- Witness for C8 at the demo's `filter` (defaulted `str`) and `key`
(required `str`) fields, with nothing supplied. -/
theorem C8_witness :
    ((∀ d, _get_pydantic_field_default
          ⟨.tstr, some (.vstr "default"), none, some "The ticket filter"⟩ = d →
        d ≠ .vnone →
        (optionFor "filter"
            ⟨.tstr, some (.vstr "default"), none, some "The ticket filter"⟩).required
            = false ∧
        parseOne (optionFor "filter"
            ⟨.tstr, some (.vstr "default"), none, some "The ticket filter"⟩) []
          = .ok d) ∧
      (_get_pydantic_field_default
          ⟨.tstr, some (.vstr "default"), none, some "The ticket filter"⟩ = .vnone →
        (optionFor "filter"
            ⟨.tstr, some (.vstr "default"), none, some "The ticket filter"⟩).required
            = true ∧
        parseOne (optionFor "filter"
            ⟨.tstr, some (.vstr "default"), none, some "The ticket filter"⟩) []
          = .error (.missingParameter "filter"))) ∧
    ((∀ d, _get_pydantic_field_default
          ⟨.tstr, none, none, some "The ticket's unique key"⟩ = d →
        d ≠ .vnone →
        (optionFor "key"
            ⟨.tstr, none, none, some "The ticket's unique key"⟩).required = false ∧
        parseOne (optionFor "key"
            ⟨.tstr, none, none, some "The ticket's unique key"⟩) [] = .ok d) ∧
      (_get_pydantic_field_default
          ⟨.tstr, none, none, some "The ticket's unique key"⟩ = .vnone →
        (optionFor "key"
            ⟨.tstr, none, none, some "The ticket's unique key"⟩).required = true ∧
        parseOne (optionFor "key"
            ⟨.tstr, none, none, some "The ticket's unique key"⟩) []
          = .error (.missingParameter "key"))) :=
  ⟨C8_nonbool_default_required_rule "filter"
      ⟨.tstr, some (.vstr "default"), none, some "The ticket filter"⟩ []
      (by simp) rfl,
   C8_nonbool_default_required_rule "key"
      ⟨.tstr, none, none, some "The ticket's unique key"⟩ []
      (by simp) rfl⟩

/-! ### C9 -/

/-- The flags of a synthesised option are exactly `mkFlags`. -/
theorem optionFor_flags (fn : String) (fi : FieldInfo) :
    (optionFor fn fi).flags = mkFlags fn fi := by
  by_cases h : _get_pydantic_field_default fi = .vnone
  · rw [optionFor_default_none fn fi h]
  · rw [optionFor_default_some fn fi h]

/-- C9: the synthesised flag list always contains the long flag
`--<name>`; it contains a short flag exactly when a truthy alias distinct
from the field name is declared (an alias equal to the name, an absent
alias, and — via the source's truthiness test — an empty alias each leave
the single long flag). -/
theorem C9_long_and_short_flags (fn : String) (fi : FieldInfo) :
    (optionFor fn fi).flags = mkFlags fn fi ∧
    ("--" ++ fn) ∈ mkFlags fn fi ∧
    ((∃ a, fi.alias' = some a ∧ a ≠ "" ∧ a ≠ fn ∧
        mkFlags fn fi = ["--" ++ fn, "-" ++ a]) ∨
      ((fi.alias' = none ∨ fi.alias' = some "" ∨ fi.alias' = some fn) ∧
        mkFlags fn fi = ["--" ++ fn])) := by
  refine ⟨optionFor_flags fn fi, ?_, ?_⟩
  · unfold mkFlags
    match fi.alias' with
    | none => simp
    | some a =>
      by_cases h : a ≠ "" ∧ a ≠ fn <;> simp [h]
  · unfold mkFlags
    match ha : fi.alias' with
    | none => right; simp
    | some a =>
      by_cases h1 : a = ""
      · right; subst h1; simp
      · by_cases h2 : a = fn
        · right; subst h2; simp
        · left; exact ⟨a, rfl, h1, h2, by simp [h1, h2]⟩

/-! ### C5 -/

mutual

/-- All fields declared anywhere in a command tree (own fields first, then
descendants', in declaration order). -/
def allFields : CommandDef → List (String × FieldInfo)
  | .mk _ fs subs => fs ++ allFieldsList subs

def allFieldsList : List CommandDef → List (String × FieldInfo)
  | [] => []
  | c :: cs => allFields c ++ allFieldsList cs

end

/-- A `NotImplementedError` from the field loop names a field of the list
whose declared type is unsupported. -/
theorem getClickParametersGo_err_mem (fs : List (String × FieldInfo))
    (fn : String) (fi : FieldInfo)
    (h : getClickParametersGo fs = .error (.notImplemented fn fi)) :
    (fn, fi) ∈ fs ∧ isSupportedScalar fi.ftype = false := by
  induction fs with
  | nil => simp [getClickParametersGo] at h
  | cons p fs ih =>
    obtain ⟨pn, pfi⟩ := p
    simp only [getClickParametersGo] at h
    split at h
    · split at h
      · rename_i e he
        obtain rfl : e = .notImplemented fn fi := by simpa using h
        have hrec := ih he
        exact ⟨List.mem_cons_of_mem _ hrec.1, hrec.2⟩
      · simp at h
    · rename_i hbad
      obtain ⟨rfl, rfl⟩ : pn = fn ∧ pfi = fi := by simpa using h
      exact ⟨by simp, by simpa using hbad⟩

/-- A field list containing an unsupported type makes the field loop
fail. -/
theorem getClickParametersGo_err_of_bad (fs : List (String × FieldInfo))
    (h : ∃ p ∈ fs, isSupportedScalar p.2.ftype = false) :
    ∃ e, getClickParametersGo fs = .error e := by
  induction fs with
  | nil => simp at h
  | cons p fs ih =>
    by_cases hp : isSupportedScalar p.2.ftype = true
    · have h' : ∃ q ∈ fs, isSupportedScalar q.2.ftype = false := by
        obtain ⟨q, hq, hbad⟩ := h
        rcases List.mem_cons.mp hq with rfl | hq'
        · rw [hp] at hbad; cases hbad
        · exact ⟨q, hq', hbad⟩
      obtain ⟨e, he⟩ := ih h'
      exact ⟨e, by simp [getClickParametersGo, hp, he]⟩
    · exact ⟨.notImplemented p.1 p.2, by simp [getClickParametersGo, hp]⟩

mutual

/-- A compile error names an unsupported-typed field of the tree. -/
theorem as_click_err_mem : ∀ (t : CommandDef) (fn : String) (fi : FieldInfo),
    _as_click t = .error (.notImplemented fn fi) →
    (fn, fi) ∈ allFields t ∧ isSupportedScalar fi.ftype = false
  | .mk n fs subs, fn, fi, h => by
    simp only [_as_click] at h
    split at h
    · rename_i e he
      obtain rfl : e = .notImplemented fn fi := by simpa using h
      have hrec := as_click_list_err_mem subs fn fi he
      exact ⟨by simp [allFields, hrec.1], hrec.2⟩
    · split at h
      · rename_i e he
        obtain rfl : e = .notImplemented fn fi := by simpa using h
        have hrec := getClickParametersGo_err_mem fs fn fi
          (by simpa [_get_click_parameters, CommandDef.fields] using he)
        exact ⟨by simp [allFields, hrec.1], hrec.2⟩
      · split at h <;> simp at h

theorem as_click_list_err_mem : ∀ (cs : List CommandDef) (fn : String) (fi : FieldInfo),
    _as_click_list cs = .error (.notImplemented fn fi) →
    (fn, fi) ∈ allFieldsList cs ∧ isSupportedScalar fi.ftype = false
  | [], fn, fi, h => by simp [_as_click_list] at h
  | c :: cs, fn, fi, h => by
    simp only [_as_click_list] at h
    split at h
    · rename_i e he
      obtain rfl : e = .notImplemented fn fi := by simpa using h
      have hrec := as_click_err_mem c fn fi he
      exact ⟨by simp [allFieldsList, hrec.1], hrec.2⟩
    · split at h
      · rename_i e he
        obtain rfl : e = .notImplemented fn fi := by simpa using h
        have hrec := as_click_list_err_mem cs fn fi he
        exact ⟨by simp [allFieldsList, hrec.1], hrec.2⟩
      · simp at h

end

mutual

/-- A tree with an unsupported-typed field anywhere fails to compile. -/
theorem as_click_isError_of_bad : ∀ t : CommandDef,
    (∃ p ∈ allFields t, isSupportedScalar p.2.ftype = false) →
    ∃ e, _as_click t = .error e
  | .mk n fs subs, h => by
    cases hks : _as_click_list subs with
    | error e => exact ⟨e, by simp [_as_click, hks]⟩
    | ok ks =>
      have hfs : ∃ p ∈ fs, isSupportedScalar p.2.ftype = false := by
        obtain ⟨p, hp, hbad⟩ := h
        simp only [allFields, List.mem_append] at hp
        rcases hp with hp | hp
        · exact ⟨p, hp, hbad⟩
        · obtain ⟨e, he⟩ := as_click_list_isError_of_bad subs ⟨p, hp, hbad⟩
          rw [he] at hks; cases hks
      obtain ⟨e, he⟩ := getClickParametersGo_err_of_bad fs hfs
      exact ⟨e, by simp [_as_click, hks, _get_click_parameters, CommandDef.fields, he]⟩

theorem as_click_list_isError_of_bad : ∀ cs : List CommandDef,
    (∃ p ∈ allFieldsList cs, isSupportedScalar p.2.ftype = false) →
    ∃ e, _as_click_list cs = .error e
  | [], h => by simp [allFieldsList] at h
  | c :: cs, h => by
    cases hc : _as_click c with
    | error e => exact ⟨e, by simp [_as_click_list, hc]⟩
    | ok k =>
      have hrest : ∃ p ∈ allFieldsList cs, isSupportedScalar p.2.ftype = false := by
        obtain ⟨p, hp, hbad⟩ := h
        simp only [allFieldsList, List.mem_append] at hp
        rcases hp with hp | hp
        · obtain ⟨e, he⟩ := as_click_isError_of_bad c ⟨p, hp, hbad⟩
          rw [he] at hc; cases hc
        · exact ⟨p, hp, hbad⟩
      obtain ⟨e, he⟩ := as_click_list_isError_of_bad cs hrest
      exact ⟨e, by simp [_as_click_list, hc, he]⟩

end

/-- C5: a command tree declaring, anywhere (own fields or any descendant's),
a field whose type is not one of the four supported scalars fails to
compile with a `NotImplementedError` naming an unsupported field of the
tree, and every invocation returns that compile error before any argv
parsing or dispatch — no partial CLI is exposed. -/
theorem C5_unsupported_field_fails_compilation (t : CommandDef)
    (h : ∃ p ∈ allFields t, isSupportedScalar p.2.ftype = false) :
    ∃ fn fi, _as_click t = .error (.notImplemented fn fi) ∧
      (fn, fi) ∈ allFields t ∧ isSupportedScalar fi.ftype = false ∧
      ∀ inv, runCLI t inv = .error (.notImplemented fn fi) := by
  obtain ⟨e, he⟩ := as_click_isError_of_bad t h
  obtain ⟨fn, fi⟩ := e
  have hmem := as_click_err_mem t fn fi he
  exact ⟨fn, fi, he, hmem.1, hmem.2, fun inv => by simp [runCLI, he]⟩

/-- A leaf declaring a collection-typed field. -/
def ListFieldCommand : CommandDef :=
  .mk "badleaf" [("items", ⟨.tother "list[str]", none, none, none⟩)] []

/-- A tree whose only unsupported field sits two levels down. -/
def DeepBadTree : CommandDef :=
  .mk "top" [("x", ⟨.tint, some (.vint 1), none, none⟩)]
    [.mk "inner" [] [ListFieldCommand]]

/-- Witness for C5: the deep unsupported field aborts compilation of the
whole tree. -/
theorem C5_witness :
    ∃ fn fi, _as_click DeepBadTree = .error (.notImplemented fn fi) ∧
      (fn, fi) ∈ allFields DeepBadTree ∧ isSupportedScalar fi.ftype = false ∧
      ∀ inv, runCLI DeepBadTree inv = .error (.notImplemented fn fi) :=
  C5_unsupported_field_fails_compilation DeepBadTree (by decide)

/-! ### C6 -/

/-- Two same-named children under one parent. -/
def DupChildA : CommandDef := .mk "dup" [] []

def DupChildB : CommandDef :=
  .mk "dup" [("x", ⟨.tstr, some (.vstr "s"), none, none⟩)] []

def DupParent : CommandDef := .mk "parent" [] [DupChildA, DupChildB]

/-- Two fields sharing the short alias `-z`. -/
def AliasClashCommand : CommandDef :=
  .mk "clash"
    [("one", ⟨.tint, some (.vint 1), some "z", none⟩),
     ("two", ⟨.tint, some (.vint 2), some "z", none⟩)] []

/-- C6 counterexample: a parent with two children both named `dup` compiles
without any error — the second child silently replaces the first in the
group's command table — and two fields with the colliding alias `-z` also
compile, both options carrying the colliding flag.  No `DefinitionError`
exists at compile time for either situation. -/
theorem C6_counterexample :
    _as_click DupParent =
      .ok (.mk "parent" [] true
        [("dup", .mk "dup"
          [⟨["--x"], "x", false, some (.vstr "s"), false, none⟩]
          false [] DupChildB)]
        DupParent) ∧
    _get_click_parameters AliasClashCommand =
      .ok [⟨["--one", "-z"], "one", false, some (.vint 1), false, none⟩,
           ⟨["--two", "-z"], "two", false, some (.vint 2), false, none⟩] :=
  ⟨rfl, rfl⟩

/-- C6 amended: compilation performs no duplicate detection.  Two children
with the same name under one parent compile successfully, the later
registration replacing the earlier in the group's command table
(`add_command` is a plain dict assignment); two fields with the same short
alias compile into two options that both carry the colliding flag. -/
theorem C6_amended_no_duplicate_detection :
    (∀ (n : String) (fs : List (String × FieldInfo)) (c1 c2 : CommandDef)
        (k1 k2 : ClickCmd) (ps : List ClickOption),
      c1.NAME = c2.NAME →
      _as_click c1 = .ok k1 → _as_click c2 = .ok k2 →
      getClickParametersGo fs = .ok ps →
      _as_click (.mk n fs [c1, c2]) =
        .ok (.mk n ps true [(c2.NAME, k2)] (.mk n fs [c1, c2]))) ∧
    (∀ (f1 f2 : String) (fi1 fi2 : FieldInfo) (a : String),
      fi1.alias' = some a → fi2.alias' = some a →
      a ≠ "" → a ≠ f1 → a ≠ f2 →
      isSupportedScalar fi1.ftype = true → isSupportedScalar fi2.ftype = true →
      getClickParametersGo [(f1, fi1), (f2, fi2)] =
        .ok [optionFor f1 fi1, optionFor f2 fi2] ∧
      ("-" ++ a) ∈ (optionFor f1 fi1).flags ∧
      ("-" ++ a) ∈ (optionFor f2 fi2).flags) := by
  constructor
  · intro n fs c1 c2 k1 k2 ps hname h1 h2 hp
    have hk1 : k1.name = c1.NAME := (as_click_ok_spec c1 k1 h1).2.1
    have hk2 : k2.name = c2.NAME := (as_click_ok_spec c2 k2 h2).2.1
    simp only [_as_click, _as_click_list, h1, h2, _get_click_parameters,
      CommandDef.fields, hp]
    simp [add_command, dictInsert, hk1, hk2, hname]
  · intro f1 f2 fi1 fi2 a ha1 ha2 hne hnf1 hnf2 hs1 hs2
    refine ⟨by simp [getClickParametersGo, hs1, hs2], ?_, ?_⟩
    · rw [optionFor_flags]
      simp [mkFlags, ha1, hne, hnf1]
    · rw [optionFor_flags]
      simp [mkFlags, ha2, hne, hnf2]

/-- Witness for the amended C6 at the duplicate-child and alias-clash
examples. -/
theorem C6_amended_witness :
    _as_click (.mk "parent" [] [DupChildA, DupChildB]) =
      .ok (.mk "parent" [] true
        [(DupChildB.NAME, .mk "dup"
          [⟨["--x"], "x", false, some (.vstr "s"), false, none⟩]
          false [] DupChildB)]
        (.mk "parent" [] [DupChildA, DupChildB])) ∧
    (getClickParametersGo
        [("one", ⟨.tint, some (.vint 1), some "z", none⟩),
         ("two", ⟨.tint, some (.vint 2), some "z", none⟩)] =
      .ok [optionFor "one" ⟨.tint, some (.vint 1), some "z", none⟩,
           optionFor "two" ⟨.tint, some (.vint 2), some "z", none⟩] ∧
    ("-" ++ "z") ∈ (optionFor "one" ⟨.tint, some (.vint 1), some "z", none⟩).flags ∧
    ("-" ++ "z") ∈ (optionFor "two" ⟨.tint, some (.vint 2), some "z", none⟩).flags) :=
  ⟨C6_amended_no_duplicate_detection.1 "parent" [] DupChildA DupChildB
      (.mk "dup" [] false [] DupChildA)
      (.mk "dup" [⟨["--x"], "x", false, some (.vstr "s"), false, none⟩]
        false [] DupChildB)
      [] rfl rfl rfl rfl,
   C6_amended_no_duplicate_detection.2 "one" "two"
      ⟨.tint, some (.vint 1), some "z", none⟩
      ⟨.tint, some (.vint 2), some "z", none⟩ "z"
      rfl rfl (by decide) (by decide) (by decide) rfl rfl⟩

end Vrachos
